import Mathlib

/-
Verification of the chunk-and-synthesize 10-K question-answering pipeline
(src/streamlit_app.py). The external collaborators (tokenizer encode/decode,
Filing Source, LLM Service) are modelled as oracles; the pipeline logic
(chunking loop, per-chunk answering with error capture, synthesis trigger,
button handler) is translated directly from the source.
-/

namespace TenK

/-! ## String helpers (Python substring test, lower, strip, join) -/

/-- Boolean test: p is a leading segment of s. -/
def hasPrefixCh : List Char → List Char → Bool
  | [], _ => true
  | _ :: _, [] => false
  | a :: as, b :: bs => a == b && hasPrefixCh as bs

/-- Boolean test: p occurs contiguously inside s, as the Python operator in does. -/
def hasInfixCh (p : List Char) : List Char → Bool
  | [] => hasPrefixCh p []
  | s@(_ :: rest) => hasPrefixCh p s || hasInfixCh p rest

/-- Python s1 in s2 on strings. -/
def strContains (s pat : String) : Bool := hasInfixCh pat.toList s.toList

/-- Python str.lower restricted to the ASCII strings the pipeline handles. -/
def pyLower (s : String) : String := ⟨s.toList.map Char.toLower⟩

/-- A whitespace character in the sense of Python str.strip. -/
def isSpaceCh (c : Char) : Bool :=
  c == ' ' || c == '\t' || c == '\n' || c == '\r' || c == '\x0b' || c == '\x0c'

/-- Python: not s.strip(), i.e. every character of s is whitespace. -/
def isBlank (s : String) : Bool := s.toList.all isSpaceCh

/-- Python sep.join(l). -/
def pyJoin (sep : String) : List String → String
  | [] => ""
  | [a] => a
  | a :: b :: rest => a ++ sep ++ pyJoin sep (b :: rest)

/-! ## Chunker: process_10k_text, token-level core

The source encodes the text to a token list and accumulates tokens one by
one, flushing a chunk whenever the accumulator reaches max_chunk_tokens,
then appends the non-empty remainder. Decoding each group back to text is
the tokenizer collaborator; the partition logic is over the token list. -/

/-- One iteration of the token loop in process_10k_text: append the token to
the current chunk and flush when it reaches max_chunk_tokens. -/
def chunkStep (M : Nat) (acc : List (List Nat) × List Nat) (t : Nat) :
    List (List Nat) × List Nat :=
  let cur := acc.2 ++ [t]
  if M ≤ cur.length then (acc.1 ++ [cur], []) else (acc.1, cur)

/-- The chunking loop of process_10k_text over the encoded token list:
fold chunkStep over the tokens, then append the last chunk if non-empty. -/
def process_10k_tokens (tokens : List Nat) (M : Nat) : List (List Nat) :=
  let r := tokens.foldl (chunkStep M) ([], [])
  if r.2 = [] then r.1 else r.1 ++ [r.2]

/-- process_10k_text: encode, partition into token groups, decode each group. -/
def process_10k_text (enc : String → List Nat) (dec : List Nat → String)
    (text : String) (M : Nat) : List String :=
  (process_10k_tokens (enc text) M).map dec

/-! ## Chunk Answerer and Synthesizer: get_answer_from_anthropic

The LLM Service is an oracle: for each chunk index it either returns the
answer text or fails with an exception message; the synthesis call likewise.
The source issues one call per chunk inside try/except, appending either the
response text or the literal error string, then joins with the separator,
short-circuits on a blank join, and triggers the synthesis call when more
than one response lacks the decline phrase. -/

/-- The LLM Service collaborator: per-chunk outcome (indexed 0-based) and
the synthesis-call outcome. An error value is the exception text. -/
structure LLM where
  chunkResp : Nat → Except String String
  synthResp : Except String String

/-- The synthetic PartialAnswer the except-branch records for a failed chunk
call: f-string "Error processing chunk {i+1}: {e}". -/
def errMarker (ord : Nat) (e : String) : String :=
  "Error processing chunk " ++ toString ord ++ ": " ++ e

/-- The per-chunk loop of get_answer_from_anthropic: one response per chunk,
in chunk order; a failed call contributes its error marker. -/
def answer_chunks (llm : LLM) (n : Nat) : List String :=
  (List.range n).map fun i =>
    match llm.chunkResp i with
    | .ok t => t
    | .error e => errMarker (i + 1) e

/-- The separator the source joins partial answers with. -/
def sepStr : String := "\n\n---\n\n"

/-- The distinct no-answer message of the source. -/
def noAnswerMsg : String := "Could not generate an answer based on the provided text."

/-- Python: "cannot answer" not in resp.lower() is the negation of this. -/
def declines (resp : String) : Bool := strContains (pyLower resp) "cannot answer"

/-- Count of partial answers that do not contain the decline phrase. -/
def nonDeclining (resps : List String) : Nat :=
  (resps.filter fun r => !(declines r)).length

/-- Result of get_answer_from_anthropic together with the number of LLM
calls issued (one per chunk, plus the synthesis call when taken). -/
structure QAResult where
  answer : String
  chunkCalls : Nat
  synthCalls : Nat
  deriving Repr, DecidableEq

/-- get_answer_from_anthropic: per-chunk answering, join with separator,
blank short-circuit, synthesis trigger, graceful synthesis failure. -/
def get_answer_from_anthropic (llm : LLM) (text_chunks : List String) : QAResult :=
  let n := text_chunks.length
  let all_responses := answer_chunks llm n
  let synthesized_answer := pyJoin sepStr all_responses
  if isBlank synthesized_answer then
    ⟨noAnswerMsg, n, 0⟩
  else if 1 < n ∧ 1 < nonDeclining all_responses then
    match llm.synthResp with
    | .ok t => ⟨t, n, 1⟩
    | .error e =>
        ⟨"Generated partial answers but failed to synthesize: " ++ synthesized_answer
          ++ "\nError: " ++ e, n, 1⟩
  else
    ⟨synthesized_answer, n, 0⟩

/-! ## Orchestrator: the button handler -/

/-- What the button handler displays: validation warning, fetch error,
no-chunks warning, answer-level error, or the successful answer. -/
inductive Outcome where
  | warnValidation : Outcome
  | errFetch : String → Outcome
  | warnNoChunks : Outcome
  | errAnswer : String → Outcome
  | success : String → Outcome
  deriving Repr, DecidableEq

/-- The external collaborators of one run: the Filing Source result, the
tokenizer pair, and the LLM Service. -/
structure Env where
  fetchResult : String
  enc : String → List Nat
  dec : List Nat → String
  llm : LLM

/-- Outcome of a run plus how many collaborator calls were issued. -/
structure RunTrace where
  outcome : Outcome
  fetchCalls : Nat
  chunkCalls : Nat
  synthCalls : Nat
  deriving Repr, DecidableEq

/-- The st.button handler: validate the three required inputs, fetch, screen
the filing text with substring checks, chunk, answer, screen the answer with
substring checks, display. -/
def button_handler (env : Env) (ticker question api_key : String) (M : Nat) :
    RunTrace :=
  if ticker = "" ∨ question = "" ∨ api_key = "" then
    ⟨.warnValidation, 0, 0, 0⟩
  else
    let filing_text := env.fetchResult
    if strContains filing_text "Error" ∨ strContains filing_text "Could not find content" then
      ⟨.errFetch filing_text, 1, 0, 0⟩
    else
      let chunks := process_10k_text env.enc env.dec filing_text M
      if chunks = [] then
        ⟨.warnNoChunks, 1, 0, 0⟩
      else
        let r := get_answer_from_anthropic env.llm chunks
        if strContains r.answer "Error" ∨ strContains r.answer "Could not generate an answer" then
          ⟨.errAnswer r.answer, 1, r.chunkCalls, r.synthCalls⟩
        else
          ⟨.success r.answer, 1, r.chunkCalls, r.synthCalls⟩

/-! ## Chunker lemmas -/

/-- Invariant of the chunking fold: flushed chunks have length exactly M,
the accumulator stays below M, and no token is lost or duplicated. -/
theorem chunkFold_spec (M : Nat) (hM : 0 < M) :
    ∀ (tokens : List Nat) (done : List (List Nat)) (cur : List Nat),
      cur.length < M →
      (∀ c ∈ done, c.length = M) →
      (∀ c ∈ (tokens.foldl (chunkStep M) (done, cur)).1, c.length = M) ∧
      (tokens.foldl (chunkStep M) (done, cur)).2.length < M ∧
      (tokens.foldl (chunkStep M) (done, cur)).1.flatten
        ++ (tokens.foldl (chunkStep M) (done, cur)).2
        = done.flatten ++ cur ++ tokens := by
  intro tokens
  induction tokens with
  | nil =>
      intro done cur hcur hdone
      simpa using ⟨hdone, hcur⟩
  | cons t ts ih =>
      intro done cur hcur hdone
      have hstep : List.foldl (chunkStep M) (done, cur) (t :: ts)
          = List.foldl (chunkStep M) (chunkStep M (done, cur) t) ts := rfl
      by_cases hfull : M ≤ (cur ++ [t]).length
      · have hful2 : M ≤ cur.length + 1 := by simpa using hfull
        have hlen : (cur ++ [t]).length = M := by
          simp only [List.length_append, List.length_singleton]
          omega
        have hstep2 : chunkStep M (done, cur) t = (done ++ [cur ++ [t]], []) := by
          simp [chunkStep, hful2]
        have hdone2 : ∀ c ∈ done ++ [cur ++ [t]], c.length = M := by
          intro c hc
          rcases List.mem_append.1 hc with hc | hc
          · exact hdone c hc
          · simp only [List.mem_singleton] at hc
            simpa [hc] using hlen
        obtain ⟨h1, h2, h3⟩ := ih (done ++ [cur ++ [t]]) [] hM hdone2
        refine ⟨by simpa [hstep, hstep2] using h1, by simpa [hstep, hstep2] using h2, ?_⟩
        rw [hstep, hstep2] at *
        rw [h3]
        simp
      · have hful2 : ¬ M ≤ cur.length + 1 := by simpa using hfull
        have hstep2 : chunkStep M (done, cur) t = (done, cur ++ [t]) := by
          simp [chunkStep, hful2]
        have hlt : (cur ++ [t]).length < M := by
          simp only [List.length_append, List.length_singleton]
          omega
        obtain ⟨h1, h2, h3⟩ := ih done (cur ++ [t]) hlt hdone
        refine ⟨by simpa [hstep, hstep2] using h1, by simpa [hstep, hstep2] using h2, ?_⟩
        rw [hstep, hstep2] at *
        rw [h3]
        simp

/-- C2: the chunking loop partitions the encoded token stream exactly — the
chunks' token sequences concatenate back to the input token list (no overlap,
no gaps, original order), every chunk holds at most M tokens, every chunk
except possibly the last holds exactly M tokens, and the empty token stream
yields zero chunks. -/
theorem C2_chunk_partition (tokens : List Nat) (M : Nat) (hM : 0 < M) :
    (process_10k_tokens tokens M).flatten = tokens ∧
    (∀ c ∈ process_10k_tokens tokens M, c.length ≤ M) ∧
    (∀ c ∈ (process_10k_tokens tokens M).dropLast, c.length = M) ∧
    process_10k_tokens [] M = [] := by
  obtain ⟨h1, h2, h3⟩ :=
    chunkFold_spec M hM tokens [] [] hM (by intro c hc; cases hc)
  simp only [List.flatten_nil, List.nil_append] at h3
  unfold process_10k_tokens
  by_cases h0 : (tokens.foldl (chunkStep M) ([], [])).2 = []
  · rw [if_pos h0]
    rw [h0, List.append_nil] at h3
    refine ⟨h3, ?_, ?_, rfl⟩
    · intro c hc; exact le_of_eq (h1 c hc)
    · intro c hc; exact h1 c (List.dropLast_subset _ hc)
  · rw [if_neg h0]
    refine ⟨by simpa using h3, ?_, ?_, rfl⟩
    · intro c hc
      rcases List.mem_append.1 hc with hc | hc
      · exact le_of_eq (h1 c hc)
      · simp only [List.mem_singleton] at hc
        exact hc ▸ le_of_lt h2
    · intro c hc
      rw [List.dropLast_concat] at hc
      exact h1 c hc

/-- Witness for C2 at concrete input: seven tokens with chunk size three. -/
theorem C2_chunk_partition_witness :
    (0:Nat) < 3 ∧
    ((process_10k_tokens [1,2,3,4,5,6,7] 3).flatten = [1,2,3,4,5,6,7] ∧
     (∀ c ∈ process_10k_tokens [1,2,3,4,5,6,7] 3, c.length ≤ 3) ∧
     (∀ c ∈ (process_10k_tokens [1,2,3,4,5,6,7] 3).dropLast, c.length = 3) ∧
     process_10k_tokens [] 3 = []) :=
  ⟨by decide, C2_chunk_partition [1,2,3,4,5,6,7] 3 (by decide)⟩

/-! ## Substring-containment lemmas -/

theorem hasPrefixCh_append (p t : List Char) : hasPrefixCh p (p ++ t) = true := by
  induction p with
  | nil => rfl
  | cons a as ih => simp [hasPrefixCh, ih]

theorem hasPrefixCh_self (p : List Char) : hasPrefixCh p p = true := by
  simpa using hasPrefixCh_append p []

theorem hasInfixCh_of_leading (p s : List Char) (h : hasPrefixCh p s = true) :
    hasInfixCh p s = true := by
  cases s with
  | nil => simpa [hasInfixCh] using h
  | cons x rest => simp [hasInfixCh, h]

theorem hasInfixCh_append_left (p a s : List Char) (h : hasInfixCh p s = true) :
    hasInfixCh p (a ++ s) = true := by
  induction a with
  | nil => simpa using h
  | cons x xs ih => simp [hasInfixCh, ih]

theorem strContains_middle (a p b : String) : strContains (a ++ p ++ b) p = true := by
  show hasInfixCh p.toList (a ++ p ++ b).toList = true
  have hsplit : (a ++ p ++ b).toList = a.toList ++ (p.toList ++ b.toList) := by
    show (a ++ p ++ b).data = a.data ++ (p.data ++ b.data)
    simp [String.data_append]
  rw [hsplit]
  exact hasInfixCh_append_left _ _ _
    (hasInfixCh_of_leading _ _ (hasPrefixCh_append _ _))

theorem strContains_right (a p : String) : strContains (a ++ p) p = true := by
  show hasInfixCh p.toList (a ++ p).toList = true
  have hsplit : (a ++ p).toList = a.toList ++ p.toList := by
    show (a ++ p).data = a.data ++ p.data
    simp [String.data_append]
  rw [hsplit]
  exact hasInfixCh_append_left _ _ _ (hasInfixCh_of_leading _ _ (hasPrefixCh_self _))

/-! ## Chunk Answerer lemmas -/

theorem answer_chunks_length (llm : LLM) (n : Nat) :
    (answer_chunks llm n).length = n := by
  simp [answer_chunks]

theorem answer_chunks_get? (llm : LLM) (n i : Nat) (h : i < n) :
    (answer_chunks llm n).get? i =
      some (match llm.chunkResp i with
            | .ok t => t
            | .error e => errMarker (i + 1) e) := by
  simp [answer_chunks, List.get?_map, List.get?_range, h]

/-- C1: when the LLM Service fails on exactly one chunk index k out of n, the
per-chunk loop still yields n PartialAnswers in chunk order; index k (alone
among the indices) carries the error marker — which contains that chunk's
1-based ordinal and the error description — and every other index carries the
model's answer text. The batch is never aborted. -/
theorem C1_partial_failure (llm : LLM) (n k : Nat) (hk : k < n) (e : String)
    (ans : Nat → String)
    (hfail : llm.chunkResp k = .error e)
    (hok : ∀ i, i < n → i ≠ k → llm.chunkResp i = .ok (ans i)) :
    (answer_chunks llm n).length = n ∧
    (∀ i, i < n → i ≠ k → (answer_chunks llm n).get? i = some (ans i)) ∧
    (answer_chunks llm n).get? k = some (errMarker (k + 1) e) ∧
    strContains (errMarker (k + 1) e) (toString (k + 1)) = true ∧
    strContains (errMarker (k + 1) e) e = true := by
  refine ⟨answer_chunks_length llm n, ?_, ?_, ?_, ?_⟩
  · intro i hi hne
    rw [answer_chunks_get? llm n i hi, hok i hi hne]
  · rw [answer_chunks_get? llm n k hk, hfail]
  · show strContains ("Error processing chunk " ++ toString (k + 1) ++ ": " ++ e)
      (toString (k + 1)) = true
    have hre : "Error processing chunk " ++ toString (k + 1) ++ ": " ++ e
        = "Error processing chunk " ++ toString (k + 1) ++ (": " ++ e) := by
      rw [String.append_assoc]
    rw [hre]
    exact strContains_middle _ _ _
  · exact strContains_right _ _

/-- Witness for C1 at a concrete input: three chunks, the call on chunk
index 1 fails with exception text boom, the others answer. -/
theorem C1_partial_failure_witness :
    (1:Nat) < 3 ∧
    (let llm : LLM :=
      ⟨fun i => if i = 1 then .error "boom" else .ok ("ans" ++ toString i), .ok "s"⟩
    (answer_chunks llm 3).length = 3 ∧
    (∀ i, i < 3 → i ≠ 1 →
      (answer_chunks llm 3).get? i = some ("ans" ++ toString i)) ∧
    (answer_chunks llm 3).get? 1 = some (errMarker 2 "boom") ∧
    strContains (errMarker 2 "boom") (toString 2) = true ∧
    strContains (errMarker 2 "boom") "boom" = true) :=
  ⟨by decide,
   C1_partial_failure
     ⟨fun i => if i = 1 then .error "boom" else .ok ("ans" ++ toString i), .ok "s"⟩
     3 1 (by decide) "boom" (fun i => "ans" ++ toString i) (by simp)
     (by intro i hi hne; simp [hne])⟩

theorem hasPrefixCh_extend (p s t : List Char) (h : hasPrefixCh p s = true) :
    hasPrefixCh p (s ++ t) = true := by
  induction p generalizing s with
  | nil => rfl
  | cons a as ih =>
    cases s with
    | nil => exact absurd h (by simp [hasPrefixCh])
    | cons b bs =>
      simp only [hasPrefixCh, Bool.and_eq_true] at h
      simp only [List.cons_append, hasPrefixCh, Bool.and_eq_true]
      exact ⟨h.1, ih bs h.2⟩

theorem hasInfixCh_append_right (p s t : List Char) (h : hasInfixCh p s = true) :
    hasInfixCh p (s ++ t) = true := by
  induction s with
  | nil =>
    simp only [hasInfixCh] at h
    exact hasInfixCh_of_leading p t (hasPrefixCh_extend p [] t h)
  | cons x xs ih =>
    simp only [hasInfixCh, Bool.or_eq_true] at h
    simp only [List.cons_append, hasInfixCh, Bool.or_eq_true]
    rcases h with h | h
    · exact Or.inl (hasPrefixCh_extend p (x :: xs) t h)
    · exact Or.inr (ih h)

theorem strContains_left (a b pat : String) (h : strContains a pat = true) :
    strContains (a ++ b) pat = true := by
  show hasInfixCh pat.toList (a ++ b).toList = true
  have hsplit : (a ++ b).toList = a.toList ++ b.toList := by
    show (a ++ b).data = a.data ++ b.data
    simp [String.data_append]
  rw [hsplit]
  exact hasInfixCh_append_right _ _ _ h

/-! ## Synthesizer lemmas -/

theorem isBlank_append (x y : String) :
    isBlank (x ++ y) = (isBlank x && isBlank y) := by
  show ((x ++ y).data.all isSpaceCh) = (x.data.all isSpaceCh && y.data.all isSpaceCh)
  rw [String.data_append, List.all_append]

/-- Joining two or more responses with the separator is never blank: the
separator itself contains non-whitespace dashes. -/
theorem isBlank_pyJoin_two (l : List String) (h : 2 ≤ l.length) :
    isBlank (pyJoin sepStr l) = false := by
  match l, h with
  | a :: b :: rest, _ =>
    show isBlank (a ++ sepStr ++ pyJoin sepStr (b :: rest)) = false
    rw [isBlank_append, isBlank_append]
    have hsep : isBlank sepStr = false := by decide
    simp [hsep]

/-- get_answer_from_anthropic on at least two chunks: the blank short-circuit
never fires, so the outcome is decided by the non-declining count. -/
theorem get_answer_multi (llm : LLM) (chunks : List String)
    (h2 : 2 ≤ chunks.length) :
    get_answer_from_anthropic llm chunks =
      if 1 < nonDeclining (answer_chunks llm chunks.length) then
        match llm.synthResp with
        | .ok t => ⟨t, chunks.length, 1⟩
        | .error e =>
            ⟨"Generated partial answers but failed to synthesize: "
              ++ pyJoin sepStr (answer_chunks llm chunks.length)
              ++ "\nError: " ++ e, chunks.length, 1⟩
      else ⟨pyJoin sepStr (answer_chunks llm chunks.length), chunks.length, 0⟩ := by
  unfold get_answer_from_anthropic
  dsimp only
  have hlen : 2 ≤ (answer_chunks llm chunks.length).length := by
    rw [answer_chunks_length]; exact h2
  rw [isBlank_pyJoin_two _ hlen]
  have h1 : 1 < chunks.length := h2
  by_cases hnd : 1 < nonDeclining (answer_chunks llm chunks.length)
  · rw [if_neg (by simp), if_pos ⟨h1, hnd⟩, if_pos hnd]
  · rw [if_neg (by simp), if_neg (by tauto), if_neg hnd]

/-- get_answer_from_anthropic on a single chunk whose call succeeds with
text t: the blank check decides between the no-answer message and t. -/
theorem get_answer_single_ok (llm : LLM) (c t : String)
    (h : llm.chunkResp 0 = .ok t) :
    get_answer_from_anthropic llm [c] =
      if isBlank t then ⟨noAnswerMsg, 1, 0⟩ else ⟨t, 1, 0⟩ := by
  unfold get_answer_from_anthropic
  dsimp only
  have hresp : answer_chunks llm 1 = [t] := by
    simp [answer_chunks, List.range_succ, h]
  simp only [List.length_singleton]
  rw [hresp]
  have hjoin : pyJoin sepStr [t] = t := rfl
  rw [hjoin]
  by_cases hb : isBlank t
  · rw [if_pos hb, if_pos hb]
  · rw [if_neg hb, if_neg hb, if_neg (by simp)]

/-- C3: in a multi-chunk run whose synthesis call would succeed with output
t, the pipeline issues exactly one extra LLM call and returns t if and only
if strictly more than one PartialAnswer lacks the case-insensitive decline
phrase; when that count is at most one it issues zero extra calls and
returns the separator-joined concatenation of all PartialAnswers. -/
theorem C3_synthesis_trigger (llm : LLM) (chunks : List String)
    (h2 : 2 ≤ chunks.length) (t : String) (hs : llm.synthResp = .ok t) :
    (((get_answer_from_anthropic llm chunks).synthCalls = 1 ∧
      (get_answer_from_anthropic llm chunks).answer = t) ↔
      1 < nonDeclining (answer_chunks llm chunks.length)) ∧
    (nonDeclining (answer_chunks llm chunks.length) ≤ 1 →
      (get_answer_from_anthropic llm chunks).synthCalls = 0 ∧
      (get_answer_from_anthropic llm chunks).answer =
        pyJoin sepStr (answer_chunks llm chunks.length)) := by
  rw [get_answer_multi llm chunks h2, hs]
  by_cases hnd : 1 < nonDeclining (answer_chunks llm chunks.length)
  · rw [if_pos hnd]
    exact ⟨by simp [hnd], fun hle => absurd hnd (by omega)⟩
  · rw [if_neg hnd]
    exact ⟨by simp [hnd], fun _ => ⟨rfl, rfl⟩⟩

/-- Witness for C3 at a concrete input: two chunks answering alpha and beta
(neither declining), synthesis output merged. -/
theorem C3_synthesis_trigger_witness :
    (let llm : LLM := ⟨fun i => if i = 0 then .ok "alpha" else .ok "beta", .ok "merged"⟩
    2 ≤ (["c1", "c2"] : List String).length ∧ llm.synthResp = .ok "merged" ∧
    ((((get_answer_from_anthropic llm ["c1", "c2"]).synthCalls = 1 ∧
       (get_answer_from_anthropic llm ["c1", "c2"]).answer = "merged") ↔
       1 < nonDeclining (answer_chunks llm 2)) ∧
     (nonDeclining (answer_chunks llm 2) ≤ 1 →
       (get_answer_from_anthropic llm ["c1", "c2"]).synthCalls = 0 ∧
       (get_answer_from_anthropic llm ["c1", "c2"]).answer =
         pyJoin sepStr (answer_chunks llm 2)))) :=
  ⟨by decide, rfl,
   C3_synthesis_trigger
     ⟨fun i => if i = 0 then .ok "alpha" else .ok "beta", .ok "merged"⟩
     ["c1", "c2"] (by decide) "merged" rfl⟩

/-- C4 counterexample: with two chunks that both decline with the standard
phrase, the pipeline returns the raw separator-joined concatenation of the
two declines, not the distinct no-answer message the claim requires. -/
theorem C4_counterexample :
    (get_answer_from_anthropic
      ⟨fun _ => .ok "I cannot answer based on the provided text.", .ok "m"⟩
      ["c1", "c2"]).answer
      = "I cannot answer based on the provided text." ++ sepStr
        ++ "I cannot answer based on the provided text." ∧
    (get_answer_from_anthropic
      ⟨fun _ => .ok "I cannot answer based on the provided text.", .ok "m"⟩
      ["c1", "c2"]).answer ≠ noAnswerMsg := by
  decide

/-- C4 amended: the distinct no-answer message is produced exactly when the
separator-joined concatenation is entirely whitespace, which cannot happen
with two or more chunks (the separator contains dashes); a multi-chunk run
in which every PartialAnswer declines instead returns the separator-joined
concatenation of the declines and issues no synthesis call. -/
theorem C4_no_answer_amended (llm : LLM) (chunks : List String) :
    (isBlank (pyJoin sepStr (answer_chunks llm chunks.length)) = true →
      (get_answer_from_anthropic llm chunks).answer = noAnswerMsg) ∧
    (2 ≤ chunks.length →
      (∀ r ∈ answer_chunks llm chunks.length, declines r = true) →
      (get_answer_from_anthropic llm chunks).answer
        = pyJoin sepStr (answer_chunks llm chunks.length) ∧
      (get_answer_from_anthropic llm chunks).synthCalls = 0) := by
  constructor
  · intro hb
    unfold get_answer_from_anthropic
    dsimp only
    rw [if_pos hb]
  · intro h2 hdecl
    have hnd : nonDeclining (answer_chunks llm chunks.length) = 0 := by
      unfold nonDeclining
      rw [List.length_eq_zero]
      rw [List.filter_eq_nil]
      intro r hr
      simp [hdecl r hr]
    rw [get_answer_multi llm chunks h2, if_neg (by omega)]
    exact ⟨rfl, rfl⟩

/-- Witness for C4 amended: a single chunk answering only a space triggers
the no-answer message, and two declining chunks yield the concatenation. -/
theorem C4_no_answer_amended_witness :
    (isBlank (pyJoin sepStr
        (answer_chunks ⟨fun _ => .ok " ", .ok "m"⟩ (["c"] : List String).length)) = true ∧
      (get_answer_from_anthropic ⟨fun _ => .ok " ", .ok "m"⟩ ["c"]).answer = noAnswerMsg) ∧
    (2 ≤ (["c1", "c2"] : List String).length ∧
      (∀ r ∈ answer_chunks
          ⟨fun _ => .ok "I cannot answer.", .ok "m"⟩ (["c1", "c2"] : List String).length,
        declines r = true) ∧
      (get_answer_from_anthropic
          ⟨fun _ => .ok "I cannot answer.", .ok "m"⟩ ["c1", "c2"]).answer
        = pyJoin sepStr
            (answer_chunks ⟨fun _ => .ok "I cannot answer.", .ok "m"⟩ 2) ∧
      (get_answer_from_anthropic
          ⟨fun _ => .ok "I cannot answer.", .ok "m"⟩ ["c1", "c2"]).synthCalls = 0) :=
  ⟨⟨by decide,
    (C4_no_answer_amended ⟨fun _ => .ok " ", .ok "m"⟩ ["c"]).1 (by decide)⟩,
   ⟨by decide, by decide,
    (C4_no_answer_amended ⟨fun _ => .ok "I cannot answer.", .ok "m"⟩ ["c1", "c2"]).2
      (by decide) (by decide)⟩⟩

/-- C5: in a multi-chunk run that reaches synthesis and whose synthesis call
fails with exception text e, the returned answer is the fallback string that
embeds the separator-joined partial answers (they are contained in the
output, so never lost) together with the explanatory failed-to-synthesize
note and the exception text. -/
theorem C5_synthesis_fallback (llm : LLM) (chunks : List String)
    (h2 : 2 ≤ chunks.length)
    (hnd : 1 < nonDeclining (answer_chunks llm chunks.length))
    (e : String) (hf : llm.synthResp = .error e) :
    (get_answer_from_anthropic llm chunks).answer
      = "Generated partial answers but failed to synthesize: "
        ++ pyJoin sepStr (answer_chunks llm chunks.length) ++ "\nError: " ++ e ∧
    strContains (get_answer_from_anthropic llm chunks).answer
      (pyJoin sepStr (answer_chunks llm chunks.length)) = true ∧
    strContains (get_answer_from_anthropic llm chunks).answer
      "failed to synthesize" = true ∧
    (get_answer_from_anthropic llm chunks).synthCalls = 1 := by
  rw [get_answer_multi llm chunks h2, hf, if_pos hnd]
  refine ⟨rfl, ?_, ?_, rfl⟩
  · show strContains ("Generated partial answers but failed to synthesize: "
      ++ pyJoin sepStr (answer_chunks llm chunks.length) ++ "\nError: " ++ e)
      (pyJoin sepStr (answer_chunks llm chunks.length)) = true
    rw [String.append_assoc]
    exact strContains_middle _ _ _
  · show strContains ("Generated partial answers but failed to synthesize: "
      ++ pyJoin sepStr (answer_chunks llm chunks.length) ++ "\nError: " ++ e)
      "failed to synthesize" = true
    apply strContains_left
    apply strContains_left
    apply strContains_left
    decide

/-- Witness for C5 at a concrete input: two non-declining answers, the
synthesis call fails with exception text quota. -/
theorem C5_synthesis_fallback_witness :
    (let llm : LLM := ⟨fun i => if i = 0 then .ok "alpha" else .ok "beta", .error "quota"⟩
    2 ≤ (["c1", "c2"] : List String).length ∧
    1 < nonDeclining (answer_chunks llm 2) ∧
    llm.synthResp = .error "quota" ∧
    ((get_answer_from_anthropic llm ["c1", "c2"]).answer
      = "Generated partial answers but failed to synthesize: "
        ++ pyJoin sepStr (answer_chunks llm 2) ++ "\nError: " ++ "quota" ∧
     strContains (get_answer_from_anthropic llm ["c1", "c2"]).answer
       (pyJoin sepStr (answer_chunks llm 2)) = true ∧
     strContains (get_answer_from_anthropic llm ["c1", "c2"]).answer
       "failed to synthesize" = true ∧
     (get_answer_from_anthropic llm ["c1", "c2"]).synthCalls = 1)) :=
  ⟨by decide, by decide, rfl,
   C5_synthesis_fallback
     ⟨fun i => if i = 0 then .ok "alpha" else .ok "beta", .error "quota"⟩
     ["c1", "c2"] (by decide) (by decide) "quota" rfl⟩

/-- C6 counterexample: a single-chunk run whose call succeeds with the
whitespace-only text returns the no-answer message, not that text unchanged,
refuting the claim that the single PartialAnswer is always passed through. -/
theorem C6_counterexample :
    (get_answer_from_anthropic ⟨fun _ => .ok " ", .ok "s"⟩ ["c"]).answer ≠ " " ∧
    (get_answer_from_anthropic ⟨fun _ => .ok " ", .ok "s"⟩ ["c"]).answer
      = noAnswerMsg := by
  decide

/-- C6 amended: a single-chunk run never issues a synthesis call, and
returns the chunk's PartialAnswer text unchanged provided that text is not
entirely whitespace; a whitespace-only text yields the distinct no-answer
message instead. -/
theorem C6_single_chunk (llm : LLM) (c t : String)
    (h : llm.chunkResp 0 = .ok t) :
    (get_answer_from_anthropic llm [c]).synthCalls = 0 ∧
    (isBlank t = false → (get_answer_from_anthropic llm [c]).answer = t) ∧
    (isBlank t = true → (get_answer_from_anthropic llm [c]).answer = noAnswerMsg) := by
  rw [get_answer_single_ok llm c t h]
  by_cases hb : isBlank t
  · rw [if_pos hb]
    exact ⟨rfl, fun hb2 => absurd hb (by simp [hb2]), fun _ => rfl⟩
  · rw [if_neg hb]
    exact ⟨rfl, fun _ => rfl, fun hb2 => absurd hb2 (by simpa using hb)⟩

/-- Witness for C6 amended at a concrete input: a single chunk answering a
non-blank text is passed through with no synthesis call. -/
theorem C6_single_chunk_witness :
    (LLM.mk (fun _ => .ok "net income rose") (.ok "s")).chunkResp 0
      = .ok "net income rose" ∧
    ((get_answer_from_anthropic
        ⟨fun _ => .ok "net income rose", .ok "s"⟩ ["c"]).synthCalls = 0 ∧
     (isBlank "net income rose" = false →
       (get_answer_from_anthropic
         ⟨fun _ => .ok "net income rose", .ok "s"⟩ ["c"]).answer = "net income rose") ∧
     (isBlank "net income rose" = true →
       (get_answer_from_anthropic
         ⟨fun _ => .ok "net income rose", .ok "s"⟩ ["c"]).answer = noAnswerMsg)) :=
  ⟨rfl, C6_single_chunk ⟨fun _ => .ok "net income rose", .ok "s"⟩ "c" "net income rose" rfl⟩

/-- C7: when the ticker, the question, or the credential is empty, the
button handler stops with the validation warning before any collaborator
activity — zero fetches and zero LLM calls — and the validation outcome is
distinct from every fetch-error outcome. -/
theorem C7_validation_stops (env : Env) (ticker question api_key : String)
    (M : Nat) (h : ticker = "" ∨ question = "" ∨ api_key = "") :
    button_handler env ticker question api_key M
      = ⟨.warnValidation, 0, 0, 0⟩ ∧
    (∀ s : String, Outcome.warnValidation ≠ Outcome.errFetch s) := by
  unfold button_handler
  rw [if_pos h]
  exact ⟨rfl, fun s => by simp⟩

/-- Witness for C7 at a concrete input: an empty ticker with the other
fields filled stops at validation with no collaborator calls. -/
theorem C7_validation_stops_witness :
    (let env : Env := ⟨"Annual report", fun _ => [0], fun _ => "chunk",
      ⟨fun _ => .ok "fine", .ok "s"⟩⟩
    (("" : String) = "" ∨ ("What is revenue?" : String) = "" ∨ ("key" : String) = "") ∧
    (button_handler env "" "What is revenue?" "key" 4000
      = ⟨.warnValidation, 0, 0, 0⟩ ∧
     ∀ s : String, Outcome.warnValidation ≠ Outcome.errFetch s)) :=
  ⟨Or.inl rfl,
   C7_validation_stops
     ⟨"Annual report", fun _ => [0], fun _ => "chunk", ⟨fun _ => .ok "fine", .ok "s"⟩⟩
     "" "What is revenue?" "key" 4000 (Or.inl rfl)⟩

/-- C8: a legitimately produced answer — the filing fetch succeeded with
benign text and the single chunk call succeeded — that happens to contain
the word Error is classified by the handler's substring check as a failure
and displayed through the error branch, a false positive of the check. -/
theorem C8_error_false_positive :
    (let env : Env := ⟨"Annual report of ACME Corp", fun _ => [0],
      fun _ => "chunktext", ⟨fun _ => .ok "There was an Error in the ledger.", .ok "s"⟩⟩
    env.llm.chunkResp 0 = .ok "There was an Error in the ledger." ∧
    button_handler env "ACME" "What happened?" "key" 4000
      = ⟨.errAnswer "There was an Error in the ledger.", 1, 1, 0⟩) := by
  exact ⟨rfl, by decide⟩

/-- C9 counterexample: in a run with three chunks whose first call fails,
the recorded PartialAnswer is the error marker with the 1-based ordinal, and
the decimal string of the total chunk count (3) does not occur in it — the
marker is not tagged with the total chunk count. -/
theorem C9_counterexample :
    (answer_chunks ⟨fun i => if i = 0 then .error "boom" else .ok "fine", .ok "s"⟩ 3).get? 0
      = some (errMarker 1 "boom") ∧
    strContains (errMarker 1 "boom") (toString (3 : Nat)) = false := by
  decide

/-- C9 amended: every PartialAnswer recorded for a failed chunk call is the
error marker string, which contains the chunk's 1-based ordinal and the
error description; the total chunk count appears only in the per-chunk
prompt, not in the marker. -/
theorem C9_error_marker (llm : LLM) (n i : Nat) (hi : i < n) (e : String)
    (hfail : llm.chunkResp i = .error e) :
    (answer_chunks llm n).get? i = some (errMarker (i + 1) e) ∧
    strContains (errMarker (i + 1) e) (toString (i + 1)) = true ∧
    strContains (errMarker (i + 1) e) e = true := by
  refine ⟨?_, ?_, strContains_right _ _⟩
  · rw [answer_chunks_get? llm n i hi, hfail]
  · show strContains ("Error processing chunk " ++ toString (i + 1) ++ ": " ++ e)
      (toString (i + 1)) = true
    rw [String.append_assoc]
    exact strContains_middle _ _ _

/-- Witness for C9 amended at a concrete input: two chunks, the first call
fails with exception text down. -/
theorem C9_error_marker_witness :
    (0:Nat) < 2 ∧
    (LLM.mk (fun _ => .error "down") (.ok "s")).chunkResp 0 = .error "down" ∧
    ((answer_chunks ⟨fun _ => .error "down", .ok "s"⟩ 2).get? 0
      = some (errMarker 1 "down") ∧
     strContains (errMarker 1 "down") (toString 1) = true ∧
     strContains (errMarker 1 "down") "down" = true) :=
  ⟨by decide, rfl,
   C9_error_marker ⟨fun _ => .error "down", .ok "s"⟩ 2 0 (by decide) "down" rfl⟩

/-- C10 counterexample: when the exception text itself contains the decline
phrase, the synthetic error marker does contain cannot answer, every marker
counts as declining, and a two-chunk run in which both calls fail issues no
synthesis call — refuting the claim that error markers never contain the
phrase and that such runs always reach synthesis. -/
theorem C10_counterexample :
    declines (errMarker 1 "it cannot answer") = true ∧
    (get_answer_from_anthropic
      ⟨fun _ => .error "it cannot answer", .ok "s"⟩ ["c1", "c2"]).synthCalls = 0 := by
  decide

/-- C10 amended: an error marker contains the decline phrase only through
its embedded exception text; whenever the markers of a run with at least two
chunks, all of whose calls fail, do not contain the phrase, every marker
counts as non-declining, the count exceeds one, and the pipeline issues the
synthesis call over the error markers alone, returning its output. -/
theorem C10_all_fail_synthesis (llm : LLM) (chunks : List String)
    (h2 : 2 ≤ chunks.length) (e : Nat → String)
    (hfail : ∀ i, i < chunks.length → llm.chunkResp i = .error (e i))
    (hnd : ∀ i, i < chunks.length → declines (errMarker (i + 1) (e i)) = false)
    (t : String) (hs : llm.synthResp = .ok t) :
    1 < nonDeclining (answer_chunks llm chunks.length) ∧
    (get_answer_from_anthropic llm chunks).synthCalls = 1 ∧
    (get_answer_from_anthropic llm chunks).answer = t := by
  have hall : ∀ r ∈ answer_chunks llm chunks.length, declines r = false := by
    intro r hr
    unfold answer_chunks at hr
    rw [List.mem_map] at hr
    obtain ⟨i, hi, hri⟩ := hr
    rw [List.mem_range] at hi
    rw [hfail i hi] at hri
    have hmk : errMarker (i + 1) (e i) = r := hri
    rw [← hmk]
    exact hnd i hi
  have hcount : nonDeclining (answer_chunks llm chunks.length) = chunks.length := by
    unfold nonDeclining
    have hfilter : (answer_chunks llm chunks.length).filter (fun r => !(declines r))
        = answer_chunks llm chunks.length := by
      rw [List.filter_eq_self]
      intro r hr
      simp [hall r hr]
    rw [hfilter, answer_chunks_length]
  have hnd2 : 1 < nonDeclining (answer_chunks llm chunks.length) := by
    rw [hcount]; omega
  rw [get_answer_multi llm chunks h2, hs, if_pos hnd2]
  exact ⟨hnd2, rfl, rfl⟩

/-- Witness for C10 amended at a concrete input: two chunks, both calls fail
with exception text boom, synthesis returns merged. -/
theorem C10_all_fail_synthesis_witness :
    (let llm : LLM := ⟨fun _ => .error "boom", .ok "merged"⟩
    2 ≤ (["c1", "c2"] : List String).length ∧
    (∀ i, i < 2 → declines (errMarker (i + 1) "boom") = false) ∧
    llm.synthResp = .ok "merged" ∧
    (1 < nonDeclining (answer_chunks llm 2) ∧
     (get_answer_from_anthropic llm ["c1", "c2"]).synthCalls = 1 ∧
     (get_answer_from_anthropic llm ["c1", "c2"]).answer = "merged")) :=
  ⟨by decide, by decide, rfl,
   C10_all_fail_synthesis ⟨fun _ => .error "boom", .ok "merged"⟩ ["c1", "c2"]
     (by decide) (fun _ => "boom") (fun i hi => rfl) (by decide) "merged" rfl⟩

end TenK
